import Mathlib

/-!
# Verification of the n8n Supabase node's dispatch and validation layer

Shallow embedding of the node's database operation handlers, validators and
error normalizer (from `src/nodes/Supabase/operations/database/index.ts` and
`src/nodes/Supabase/utils/supabaseClient.ts`), together with proofs of the
spec's testable properties about them.

Conventions of the embedding:
* JavaScript runtime values are modelled by the inductive `JVal`; `null` and
  `undefined` are merged into `JVal.null` (the code under study distinguishes
  them only through truthiness, where both are falsy).
* Fallible code is embedded in `Except String`, the error string being the
  thrown `Error`'s message.
* Each handler is split exactly along the source's `await` boundary: a pure
  resolve phase that reads parameters and builds the query (everything before
  the single backend call), and a reshape phase applied to a backend response
  supplied as an oracle argument.  The handler's result records the issued
  backend call as an `Option` (`none` = the handler threw before any backend
  call was issued).
-/

namespace SupabaseNode

/-- Model of a JavaScript runtime value. -/
inductive JVal where
  | null : JVal
  | undef : JVal
  | str (s : String) : JVal
  | num (n : Int) : JVal
  | bool (b : Bool) : JVal
  | arr (elems : List JVal) : JVal
  | obj (fields : List (String × JVal)) : JVal

/-- JavaScript truthiness of a value (`if (v)`).  `NaN` is not representable
in the integer number model. -/
def jsTruthy : JVal → Bool
  | .null => false
  | .undef => false
  | .str s => s ≠ ""
  | .num n => n ≠ 0
  | .bool b => b
  | .arr _ => true
  | .obj _ => true

/-- Discriminator for the strict comparison `v !== undefined`. -/
def isUndef : JVal → Bool
  | .undef => true
  | _ => false

/-- Property access `v[k]` on a JavaScript value: defined field lookup on
plain objects, `undefined` (here `none`) everywhere else.  The embedded code
accesses only named fields that strings/numbers/arrays do not carry. -/
def getField (v : JVal) (k : String) : Option JVal :=
  match v with
  | .obj fields => fields.lookup k
  | _ => none

/-- Value of `v[k]` when it is truthy (the pattern `if (e.f) return e.f`). -/
def truthyField (v : JVal) (k : String) : Option JVal :=
  match getField v k with
  | some f => if jsTruthy f then some f else none
  | none => none

/-- Characters escaped by `JSON.stringify` inside string literals.  The model
covers the quote and backslash escapes; control-character escapes are outside
the value sublanguage exercised here. -/
def escChar (c : Char) : List Char :=
  if c = '"' ∨ c = '\\' then ['\\', c] else [c]

def escChars (s : List Char) : List Char :=
  (s.map escChar).flatten

/-- Model of `JSON.stringify` restricted to the `JVal` model (no-whitespace output,
exactly the separator convention of the JavaScript builtin); `undefined`
never reaches it in the embedded code. -/
def jsonStringify : JVal → String
  | .null => "null"
  | .undef => "undefined"
  | .str s => "\"" ++ String.mk (escChars s.data) ++ "\""
  | .num n => toString n
  | .bool b => cond b "true" "false"
  | .arr elems => "[" ++ ",".intercalate (elems.attach.map fun ⟨e, _⟩ => jsonStringify e) ++ "]"
  | .obj fields => "\x7b" ++ ",".intercalate (fields.attach.map fun ⟨⟨k, v⟩, _⟩ =>
      "\"" ++ String.mk (escChars k.data) ++ "\":" ++ jsonStringify v) ++ "\x7d"
decreasing_by
  · rename_i he
    have := List.sizeOf_lt_of_mem he
    simp_wf; omega
  · rename_i hf
    have h1 := List.sizeOf_lt_of_mem hf
    simp at h1
    simp_wf; omega

/-- JavaScript `String(v)` coercion, used where a value reaches an `Error`
constructor or a template literal. -/
def jsToString : JVal → String
  | .str s => s
  | .null => "null"
  | .undef => "undefined"
  | .num n => toString n
  | .bool b => cond b "true" "false"
  | .arr _ => ""            -- [].toString() on nested values is not exercised
  | .obj _ => "[object Object]"

/-!
## Validators and error normalizer
(`src/nodes/Supabase/utils/supabaseClient.ts`)
-/

/-- One character of the identifier-body class `[a-zA-Z0-9_]`. -/
def isIdentChar (c : Char) : Bool :=
  c.isAlpha || c.isDigit || c = '_'

/-- The test `/^[a-zA-Z][a-zA-Z0-9_]*$/.test(s)` (the JavaScript regex is
anchored at both ends and, without the `m` flag, `$` matches only the true
end of the string).  `Char.isAlpha`/`Char.isDigit` are the ASCII classes,
matching the regex's character ranges. -/
def matchesIdent (s : String) : Bool :=
  match s.data with
  | [] => false
  | c :: rest => c.isAlpha && rest.all isIdentChar

/-- Embedding of `validateTableName` (supabaseClient.ts:131).  String length: JavaScript's
`.length` counts UTF-16 units and Lean's counts code points, but the two can
differ only on strings already rejected by the regex test, which runs first. -/
def validateTableName (tableName : String) : Except String Unit :=
  if tableName = "" then
    .error "Table name is required"
  else if ¬ matchesIdent tableName then
    .error "Table name must start with a letter and contain only letters, numbers, and underscores"
  else if tableName.length > 63 then
    .error "Table name must be 63 characters or less"
  else
    .ok ()

/-- Embedding of `validateColumnName` (supabaseClient.ts:148). -/
def validateColumnName (columnName : String) : Except String Unit :=
  if columnName = "" then
    .error "Column name is required"
  else if ¬ matchesIdent columnName then
    .error "Column name must start with a letter and contain only letters, numbers, and underscores"
  else if columnName.length > 63 then
    .error "Column name must be 63 characters or less"
  else
    .ok ()

/-- Embedding of `convertFilterOperator` (supabaseClient.ts:165): identity on the twelve
known operators, `eq` fallback for everything else. -/
def convertFilterOperator (operator : String) : String :=
  if operator = "eq" ∨ operator = "neq" ∨ operator = "gt" ∨ operator = "gte" ∨
     operator = "lt" ∨ operator = "lte" ∨ operator = "like" ∨ operator = "ilike" ∨
     operator = "is" ∨ operator = "in" ∨ operator = "cs" ∨ operator = "cd" then
    operator
  else
    "eq"

/-- Embedding of `formatSupabaseError` (supabaseClient.ts:64).  The TypeScript signature
declares `string` but the implementation returns the raw field value
(`return error.message`), so the model returns a `JVal`; every string case
returns a `.str`. -/
def formatSupabaseError (error : JVal) : JVal :=
  if ¬ jsTruthy error then .str "Unknown error occurred"
  else match error with
  | .str s => .str s
  | _ =>
    match truthyField error "message" with
    | some m => m
    | none =>
      match truthyField error "error_description" with
      | some m => m
      | none =>
        match truthyField error "details" with
        | some m => m
        | none => .str (jsonStringify error)

/-!
## Model of `JSON.parse`

The platform builtin, modelled as a fueled recursive-descent parser over the
no-whitespace JSON sublanguage (the exact output language of
`JSON.stringify`, which is also the shape of the claims' inputs; surrounding
whitespace tolerance of the real builtin is not modelled).  Numbers are
modelled as integers.  Duplicate object keys follow JavaScript object
assignment semantics (last value wins, first position kept), applied by
`jsObjOfMembers`. -/

/-- Insert `k ↦ v` into a JavaScript object: overwrite in place when the key
exists, append otherwise. -/
def objSet (fields : List (String × JVal)) (k : String) (v : JVal) : List (String × JVal) :=
  if (fields.lookup k).isSome then
    fields.map (fun f => if f.1 = k then (k, v) else f)
  else
    fields ++ [(k, v)]

/-- Build a JavaScript object from parsed members by repeated assignment. -/
def jsObjOfMembers (members : List (String × JVal)) : List (String × JVal) :=
  members.foldl (fun acc m => objSet acc m.1 m.2) []

/-- Parse the body of a JSON string literal after its opening quote; returns
the content and the input following the closing quote.  Escapes are decoded
by dropping the backslash (exact for the `\"` and `\\` escapes emitted by
`jsonStringify`). -/
def parseStrBody : List Char → Option (List Char × List Char)
  | [] => none
  | '"' :: rest => some ([], rest)
  | '\\' :: c :: rest => (parseStrBody rest).map (fun p => (c :: p.1, p.2))
  | c :: rest => (parseStrBody rest).map (fun p => (c :: p.1, p.2))

/-- Parse an optionally-signed integer literal. -/
def parseIntLit (cs : List Char) : Option (Int × List Char) :=
  let (neg, cs') := match cs with
    | '-' :: rest => (true, rest)
    | _ => (false, cs)
  let (digits, rest) := cs'.span Char.isDigit
  if digits.isEmpty then none
  else
    let n : Int := digits.foldl (fun acc c => acc * 10 + (c.toNat - '0'.toNat : Int)) 0
    some (if neg then -n else n, rest)

mutual

/-- Parse one JSON value. -/
def parseVal : Nat → List Char → Option (JVal × List Char)
  | 0, _ => none
  | fuel+1, cs =>
    match cs with
    | 'n' :: 'u' :: 'l' :: 'l' :: rest => some (.null, rest)
    | 't' :: 'r' :: 'u' :: 'e' :: rest => some (.bool true, rest)
    | 'f' :: 'a' :: 'l' :: 's' :: 'e' :: rest => some (.bool false, rest)
    | '"' :: rest => (parseStrBody rest).map (fun p => (.str (String.mk p.1), p.2))
    | '[' :: ']' :: rest => some (.arr [], rest)
    | '[' :: rest => (parseElems fuel rest).map (fun p => (.arr p.1, p.2))
    | '{' :: '}' :: rest => some (.obj [], rest)
    | '{' :: rest => (parseMembers fuel rest).map (fun p => (.obj (jsObjOfMembers p.1), p.2))
    | cs' => (parseIntLit cs').map (fun p => (.num p.1, p.2))

/-- Parse array elements up to and including the closing bracket. -/
def parseElems : Nat → List Char → Option (List JVal × List Char)
  | 0, _ => none
  | fuel+1, cs =>
    match parseVal fuel cs with
    | some (v, ',' :: rest) => (parseElems fuel rest).map (fun p => (v :: p.1, p.2))
    | some (v, ']' :: rest) => some ([v], rest)
    | _ => none

/-- Parse object members up to and including the closing brace. -/
def parseMembers : Nat → List Char → Option (List (String × JVal) × List Char)
  | 0, _ => none
  | fuel+1, cs =>
    match cs with
    | '"' :: rest =>
      match parseStrBody rest with
      | some (k, ':' :: rest2) =>
        match parseVal fuel rest2 with
        | some (v, ',' :: rest3) =>
          (parseMembers fuel rest3).map (fun p => ((String.mk k, v) :: p.1, p.2))
        | some (v, '}' :: rest3) => some ([(String.mk k, v)], rest3)
        | _ => none
      | _ => none
    | _ => none

end

/-- Model of `JSON.parse`, succeeding only when the whole input is consumed.  The fuel
`2 * length + 2` is sufficient for every input in the modelled sublanguage
(each unit of fuel spent on descent consumes at least one input character). -/
def jsonParse (s : String) : Option JVal :=
  match parseVal (2 * s.length + 2) s.data with
  | some (v, []) => some v
  | _ => none

/-!
## Models of the JavaScript string builtins used by the handlers
-/

/-- Model of `String.prototype.trim`: strip leading and trailing whitespace. -/
def jsTrim (s : String) : String :=
  String.mk (((s.data.dropWhile Char.isWhitespace).reverse.dropWhile Char.isWhitespace).reverse)

/-- Model of `String.prototype.toLowerCase` (ASCII case mapping suffices here). -/
def jsToLower (s : String) : String :=
  String.mk (s.data.map Char.toLower)

/-- Model of `String.prototype.startsWith`. -/
def jsStartsWith (s pat : String) : Bool :=
  pat.data.isPrefixOf s.data

/-- Model of `String.prototype.includes`. -/
def containsSub (pat : List Char) : List Char → Bool
  | [] => pat.isEmpty
  | c :: rest => pat.isPrefixOf (c :: rest) || containsSub pat rest

def jsIncludes (s pat : String) : Bool :=
  containsSub pat.data s.data

/-!
## Data model of the database operations
(`src/nodes/Supabase/types` and the parameter reads in
`operations/database/index.ts`)
-/

/-- Structure `IRowFilter`: one simple-mode filter row.  `value` is
`string | number | boolean | null`. -/
structure RowFilter where
  column : String
  operator : String
  value : JVal

/-- Structure `IRowSort`. -/
structure RowSort where
  column : String
  ascending : Bool

/-- One `{name, value}` entry of the simple-mode `columns.column` list. -/
structure ColumnPair where
  name : String
  value : JVal

/-- Structure `IColumnDefinition`.  The optional TypeScript fields are read only
through truthiness tests (`!column.nullable`, `if (column.defaultValue)`),
under which an absent field coincides with `false` / `""`. -/
structure ColumnDefinition where
  name : String
  type : String
  nullable : Bool
  defaultValue : String
  primaryKey : Bool
  unique : Bool

/-- Structure `IIndexDefinition`; the optional `method` is read through a truthiness
test, under which absent coincides with `""`. -/
structure IndexDefinition where
  name : String
  columns : List String
  unique : Bool
  method : String

/-- The node-parameter bag visible to the database handlers: one field per
`getNodeParameter` name, already carrying the host-resolved value (the
declared default when the parameter is absent or hidden by the UI). -/
structure Params where
  table : String
  uiMode : String                              -- default "simple"
  jsonData : String                            -- default "{}"
  columns : List ColumnPair                    -- "columns.column", default []
  filters : List RowFilter                     -- "filters.filter", default []
  advancedFilters : String                     -- default ""
  returnFields : String                        -- default "*"
  sort : List RowSort                          -- "sort.sortField", default []
  limit : Option Int                           -- default undefined
  offset : Option Int                          -- default undefined
  onConflict : String                          -- default ""
  tableName : String
  columnDefinitions : List ColumnDefinition    -- "columnDefinitions.column", default []
  columnDefinition : ColumnDefinition
  columnName : String
  cascade : Bool                               -- default false
  indexDefinition : IndexDefinition
  indexName : String
  customSql : String

/-- One `query.filter(column, operator, value)` call applied to the builder. -/
structure AppliedFilter where
  column : String
  op : String
  value : JVal

/-- The fully-built read query at the point it is awaited. -/
structure ReadQuery where
  table : String
  selectArg : String
  filters : List AppliedFilter
  sorts : List RowSort
  limit : Option Int
  range : Option (Int × Int)

/-- The single backend call a handler issues. -/
inductive BackendCall where
  | insert (table : String) (data : JVal)
  | selectQ (q : ReadQuery)
  | updateQ (table : String) (data : JVal) (filters : List AppliedFilter)
  | deleteQ (table : String) (filters : List AppliedFilter)
  | upsertQ (table : String) (data : JVal) (onConflict : String)
  | rpc (fn : String) (sql : String)

/-- Backend response as destructured by the handlers: `{ data, error }`.
The code tests `if (error)` by truthiness (`JVal.null` = no error). -/
structure DbResponse where
  error : JVal
  data : JVal

/-- Type `INodeExecutionData` restricted to its `json` payload. -/
structure ResultItem where
  json : JVal

/-- A handler's result: the backend call it issued (`none` when it threw
before issuing one) and the thrown message or returned items. -/
abbrev HandlerResult := Option BackendCall × Except String (List ResultItem)

/-- Value of `data?.length || 0`: array length, string length, otherwise `0` (an
absent `length` is `undefined`, falsy). -/
def jsLenOrZero : JVal → Int
  | .arr elems => elems.length
  | .str s => s.length
  | _ => 0

/-- The message thrown for a backend error:
`new Error(formatSupabaseError(error))`. -/
def backendErrorMessage (error : JVal) : String :=
  jsToString (formatSupabaseError error)

/-!
## Row-operation handlers
(`operations/database/index.ts`)
-/

/-- The simple-mode row object (handleCreate lines 100–110 and the identical
loops in update/upsert): start from `{}` and assign each pair whose name is
truthy and whose value is not `undefined`. -/
def buildSimpleFields (columns : List ColumnPair) : List (String × JVal) :=
  columns.foldl
    (fun acc c => if c.name ≠ "" ∧ ¬ isUndef c.value then objSet acc c.name c.value else acc)
    []

/-- The dual-mode row-object resolution shared verbatim by create, update
and upsert: advanced mode parses `jsonData`, simple mode folds the column
pairs. -/
def resolveRowObject (uiMode jsonData : String) (columns : List ColumnPair) :
    Except String JVal :=
  if uiMode = "advanced" then
    match jsonParse jsonData with
    | some v => .ok v
    | none => .error "Invalid JSON data provided"
  else
    .ok (.obj (buildSimpleFields columns))

/-- Embedding of `handleCreate` (index.ts:80). -/
def handleCreate (p : Params) (resp : DbResponse) : HandlerResult :=
  match validateTableName p.table with
  | .error e => (none, .error e)
  | .ok () =>
    match resolveRowObject p.uiMode p.jsonData p.columns with
    | .error e => (none, .error e)
    | .ok dataToInsert =>
      (some (.insert p.table dataToInsert),
       if jsTruthy resp.error then .error (backendErrorMessage resp.error)
       else .ok [⟨.obj [("data", resp.data), ("operation", .str "create"),
                        ("table", .str p.table)]⟩])

/-- The advanced-filter resolution of `handleRead` (index.ts:154–170): parse
the JSON text, then iterate `Object.entries`; a member whose value is an
object (or array — `typeof` is `'object'` for both) contributes its first
entry as `{operator: value}` (an empty object makes the destructuring throw,
caught by the same `catch`), anything else is an implicit `eq`.  `null` has
`typeof 'object'` but is excluded by the explicit `!== null` test, so it
falls to the `eq` branch.  `Object.entries` on a non-object parse result
(number, boolean, null) yields nothing. -/
def jsEntries : JVal → List (String × JVal)
  | .obj fields => fields
  | .arr elems => elems.enum.map fun e => (toString e.1, e.2)
  | _ => []

/-- Test `typeof condition === 'object' && condition !== null`. -/
def isObjectTypeof : JVal → Bool
  | .obj _ => true
  | .arr _ => true
  | _ => false

def resolveAdvancedFilters (advancedFilters : String) : Except String (List AppliedFilter) :=
  if advancedFilters ≠ "" then
    match jsonParse advancedFilters with
    | none => .error "Invalid advanced filters JSON"
    | some v =>
      (jsEntries v).foldlM
        (fun acc e =>
          if isObjectTypeof e.2 then
            match (jsEntries e.2).head? with
            | some (op, value) => .ok (acc ++ [⟨e.1, convertFilterOperator op, value⟩])
            | none => .error "Invalid advanced filters JSON"
          else
            .ok (acc ++ [⟨e.1, "eq", e.2⟩]))
        []
  else
    .ok []

/-- Resolve phase of `handleRead`: everything `handleRead` does before the `await`
(index.ts:133–188). -/
def resolveRead (p : Params) : Except String ReadQuery :=
  match validateTableName p.table with
  | .error e => .error e
  | .ok () =>
    -- select('*'), replaced by select(returnFields) when truthy and ≠ '*'
    let selectArg := if p.returnFields ≠ "" ∧ p.returnFields ≠ "*" then p.returnFields else "*"
    let filtersR :=
      if p.uiMode = "simple" then
        .ok (p.filters.map fun f => AppliedFilter.mk f.column (convertFilterOperator f.operator) f.value)
      else
        resolveAdvancedFilters p.advancedFilters
    match filtersR with
    | .error e => .error e
    | .ok filters =>
      -- range(offset, offset + (limit || 1000) - 1); `limit || 1000` is a
      -- truthiness fallback, so an explicit limit of 0 also yields 1000
      let rangeV := match p.offset with
        | some o =>
          some (o, o + (match p.limit with
                        | some l => if l ≠ 0 then l else 1000
                        | none => 1000) - 1)
        | none => none
      .ok ⟨p.table, selectArg, filters, p.sort, p.limit, rangeV⟩

/-- The read reshape (index.ts:196–217): one item per row of an array
response; a non-array or empty response yields the single no-records item.
The `count` field of the metadata item embeds `count || 0`: the select call
is issued without a count option, under which the client library always
reports `count` as `null`, so the fallback `0` is what is emitted. -/
def readReshape (table : String) (respData : JVal) : List ResultItem :=
  let rows := match respData with
    | .arr rs => rs.map ResultItem.mk
    | _ => []
  if rows.isEmpty then
    [⟨.obj [("data", .arr []), ("count", .num 0), ("operation", .str "read"),
            ("table", .str table), ("message", .str "No records found")]⟩]
  else
    rows

/-- Embedding of `handleRead` (index.ts:128). -/
def handleRead (p : Params) (resp : DbResponse) : HandlerResult :=
  match resolveRead p with
  | .error e => (none, .error e)
  | .ok q =>
    (some (.selectQ q),
     if jsTruthy resp.error then .error (backendErrorMessage resp.error)
     else .ok (readReshape p.table resp.data))

/-- Embedding of `handleUpdate` (index.ts:223): dual-mode data resolution, then the filter
chain taken from the simple-mode `filters.filter` parameter (the only filter
parameter this handler reads). -/
def handleUpdate (p : Params) (resp : DbResponse) : HandlerResult :=
  match validateTableName p.table with
  | .error e => (none, .error e)
  | .ok () =>
    match resolveRowObject p.uiMode p.jsonData p.columns with
    | .error e => (none, .error e)
    | .ok dataToUpdate =>
      let applied := p.filters.map fun f =>
        AppliedFilter.mk f.column (convertFilterOperator f.operator) f.value
      (some (.updateQ p.table dataToUpdate applied),
       if jsTruthy resp.error then .error (backendErrorMessage resp.error)
       else .ok [⟨.obj [("data", resp.data), ("operation", .str "update"),
                        ("table", .str p.table),
                        ("updated", .num (jsLenOrZero resp.data))]⟩])

/-- Embedding of `handleDelete` (index.ts:277): table validation, then the empty-filter
guard, then the chain from the simple-mode `filters.filter` parameter. -/
def handleDelete (p : Params) (resp : DbResponse) : HandlerResult :=
  match validateTableName p.table with
  | .error e => (none, .error e)
  | .ok () =>
    if p.filters.isEmpty then
      (none, .error "At least one filter is required for delete operations to prevent accidental data loss")
    else
      let applied := p.filters.map fun f =>
        AppliedFilter.mk f.column (convertFilterOperator f.operator) f.value
      (some (.deleteQ p.table applied),
       if jsTruthy resp.error then .error (backendErrorMessage resp.error)
       else .ok [⟨.obj [("data", resp.data), ("operation", .str "delete"),
                        ("table", .str p.table),
                        ("deleted", .num (jsLenOrZero resp.data))]⟩])

/-- Embedding of `handleUpsert` (index.ts:311). -/
def handleUpsert (p : Params) (resp : DbResponse) : HandlerResult :=
  match validateTableName p.table with
  | .error e => (none, .error e)
  | .ok () =>
    match resolveRowObject p.uiMode p.jsonData p.columns with
    | .error e => (none, .error e)
    | .ok dataToUpsert =>
      (some (.upsertQ p.table dataToUpsert p.onConflict),
       if jsTruthy resp.error then .error (backendErrorMessage resp.error)
       else .ok [⟨.obj [("data", resp.data), ("operation", .str "upsert"),
                        ("table", .str p.table)]⟩])

/-!
## DDL handlers (index.ts:365–557)
-/

/-- One column definition of the synthesized `CREATE TABLE` text
(index.ts:386–404): the name double-quoted, the type and `defaultValue`
interpolated raw. -/
def buildColumnDef (c : ColumnDefinition) : String :=
  "\"" ++ c.name ++ "\" " ++ c.type
    ++ (if ¬ c.nullable then " NOT NULL" else "")
    ++ (if c.defaultValue ≠ "" then " DEFAULT " ++ c.defaultValue else "")
    ++ (if c.primaryKey then " PRIMARY KEY" else "")
    ++ (if c.unique ∧ ¬ c.primaryKey then " UNIQUE" else "")

def createTableSql (tableName : String) (cols : List ColumnDefinition) : String :=
  "CREATE TABLE \"" ++ tableName ++ "\" (" ++ ", ".intercalate (cols.map buildColumnDef) ++ ")"

/-- The per-column `validateColumnName` calls of the build loop, in order. -/
def validateColumnDefs : List ColumnDefinition → Except String Unit
  | [] => .ok ()
  | c :: rest =>
    match validateColumnName c.name with
    | .error e => .error e
    | .ok () => validateColumnDefs rest

/-- Shared tail of every DDL handler: issue `rpc('exec_sql', { sql })`, throw
the normalized error, or return the handler's single success item. -/
def rpcExec (sql : String) (successJson : JVal) (resp : DbResponse) : HandlerResult :=
  (some (.rpc "exec_sql" sql),
   if jsTruthy resp.error then .error (backendErrorMessage resp.error)
   else .ok [⟨successJson⟩])

/-- Embedding of `handleCreateTable` (index.ts:365). -/
def handleCreateTable (p : Params) (resp : DbResponse) : HandlerResult :=
  match validateTableName p.tableName with
  | .error e => (none, .error e)
  | .ok () =>
    if p.columnDefinitions.isEmpty then
      (none, .error "At least one column definition is required")
    else
      match validateColumnDefs p.columnDefinitions with
      | .error e => (none, .error e)
      | .ok () =>
        let sql := createTableSql p.tableName p.columnDefinitions
        rpcExec sql (.obj [("operation", .str "createTable"),
                           ("tableName", .str p.tableName),
                           ("sql", .str sql), ("success", .bool true)]) resp

/-- Embedding of `handleDropTable` (index.ts:421). -/
def handleDropTable (p : Params) (resp : DbResponse) : HandlerResult :=
  match validateTableName p.tableName with
  | .error e => (none, .error e)
  | .ok () =>
    let sql := "DROP TABLE \"" ++ p.tableName ++ "\"" ++ (if p.cascade then " CASCADE" else "")
    rpcExec sql (.obj [("operation", .str "dropTable"),
                       ("tableName", .str p.tableName),
                       ("sql", .str sql), ("success", .bool true)]) resp

/-- Embedding of `handleAddColumn` (index.ts:445). -/
def handleAddColumn (p : Params) (resp : DbResponse) : HandlerResult :=
  match validateTableName p.tableName with
  | .error e => (none, .error e)
  | .ok () =>
    match validateColumnName p.columnDefinition.name with
    | .error e => (none, .error e)
    | .ok () =>
      let c := p.columnDefinition
      let sql := "ALTER TABLE \"" ++ p.tableName ++ "\" ADD COLUMN \"" ++ c.name ++ "\" " ++ c.type
        ++ (if ¬ c.nullable then " NOT NULL" else "")
        ++ (if c.defaultValue ≠ "" then " DEFAULT " ++ c.defaultValue else "")
      rpcExec sql (.obj [("operation", .str "addColumn"),
                         ("tableName", .str p.tableName),
                         ("columnName", .str c.name),
                         ("sql", .str sql), ("success", .bool true)]) resp

/-- Embedding of `handleDropColumn` (index.ts:478). -/
def handleDropColumn (p : Params) (resp : DbResponse) : HandlerResult :=
  match validateTableName p.tableName with
  | .error e => (none, .error e)
  | .ok () =>
    match validateColumnName p.columnName with
    | .error e => (none, .error e)
    | .ok () =>
      let sql := "ALTER TABLE \"" ++ p.tableName ++ "\" DROP COLUMN \"" ++ p.columnName ++ "\""
        ++ (if p.cascade then " CASCADE" else "")
      rpcExec sql (.obj [("operation", .str "dropColumn"),
                         ("tableName", .str p.tableName),
                         ("columnName", .str p.columnName),
                         ("sql", .str sql), ("success", .bool true)]) resp

/-- The `CREATE INDEX` text (index.ts:518–522): the index name and each
index column are double-quoted without any `validate*` call; the access
method is interpolated raw after `USING`. -/
def createIndexSql (tableName : String) (idx : IndexDefinition) : String :=
  "CREATE " ++ (if idx.unique then "UNIQUE " else "") ++ "INDEX \"" ++ idx.name
    ++ "\" ON \"" ++ tableName ++ "\""
    ++ (if idx.method ≠ "" then " USING " ++ idx.method else "")
    ++ " (" ++ ", ".intercalate (idx.columns.map fun col => "\"" ++ col ++ "\"") ++ ")"

/-- Embedding of `handleCreateIndex` (index.ts:504): after table validation the only
check on the index definition is non-emptiness of its name and column list. -/
def handleCreateIndex (p : Params) (resp : DbResponse) : HandlerResult :=
  match validateTableName p.tableName with
  | .error e => (none, .error e)
  | .ok () =>
    if p.indexDefinition.name = "" ∨ p.indexDefinition.columns.isEmpty then
      (none, .error "Index name and columns are required")
    else
      let sql := createIndexSql p.tableName p.indexDefinition
      rpcExec sql (.obj [("operation", .str "createIndex"),
                         ("tableName", .str p.tableName),
                         ("indexName", .str p.indexDefinition.name),
                         ("sql", .str sql), ("success", .bool true)]) resp

/-- Embedding of `handleDropIndex` (index.ts:536): no `validate*` call at all; the index
name is only checked non-empty, then double-quoted. -/
def handleDropIndex (p : Params) (resp : DbResponse) : HandlerResult :=
  if p.indexName = "" then
    (none, .error "Index name is required")
  else
    let sql := "DROP INDEX \"" ++ p.indexName ++ "\"" ++ (if p.cascade then " CASCADE" else "")
    rpcExec sql (.obj [("operation", .str "dropIndex"),
                       ("indexName", .str p.indexName),
                       ("sql", .str sql), ("success", .bool true)]) resp

/-!
## Custom query handler (index.ts:562–610)
-/

/-- Embedding of `handleCustomQuery`: a blank query throws; a query whose trimmed text
starts with `select` (case-insensitively) goes to `rpc('exec_sql_select')`
with per-row reshaping (and a synthetic item when no rows come back);
everything else goes to `rpc('exec_sql')` with a single `{result, success}`
item. -/
def handleCustomQuery (p : Params) (resp : DbResponse) : HandlerResult :=
  if jsTrim p.customSql = "" then
    (none, .error "SQL query is required")
  else if jsStartsWith (jsToLower (jsTrim p.customSql)) "select" then
    (some (.rpc "exec_sql_select" p.customSql),
     if jsTruthy resp.error then .error (backendErrorMessage resp.error)
     else
       let rows := match resp.data with
         | .arr rs => rs.map ResultItem.mk
         | _ => []
       .ok (if rows.isEmpty then
              [⟨.obj [("data", .arr []), ("operation", .str "customQuery"),
                      ("sql", .str p.customSql),
                      ("message", .str "Query executed successfully, no results returned")]⟩]
            else rows))
  else
    (some (.rpc "exec_sql" p.customSql),
     if jsTruthy resp.error then .error (backendErrorMessage resp.error)
     else .ok [⟨.obj [("operation", .str "customQuery"), ("sql", .str p.customSql),
                      ("result", resp.data), ("success", .bool true)]⟩])

/-!
## JSON serialization of a flat string mapping

The round-trip property relates the simple-mode column pairs of a mapping to
the advanced-mode parse of the mapping's JSON serialization.  The
serialization of a flat string-to-string mapping — the output of
`JSON.stringify` on such an object — is modelled here directly. -/

/-- The text of one object member, `"key":"value"` with both strings
escaped. -/
def memberChars (p : String × String) : List Char :=
  '"' :: (escChars p.1.data ++ '"' :: ':' :: '"' :: (escChars p.2.data ++ ['"']))

/-- The member list text including the closing brace. -/
def membersChars : List (String × String) → List Char
  | [] => ['}']
  | [p] => memberChars p ++ ['}']
  | p :: ps => memberChars p ++ ',' :: membersChars ps

/-- Model of `JSON.stringify` of a flat string-to-string mapping. -/
def serializePairs (pairs : List (String × String)) : String :=
  String.mk ('{' :: membersChars pairs)

/-!
## Batch orchestrator (`Supabase.execute`, Supabase.node.ts:1325–1365)
-/

/-- What processing one input item comes to from the loop's point of view:
either the dispatcher's list of result items, or a thrown error whose
normalized message (`error instanceof Error ? error.message :
'Unknown error occurred'`) is `message`. -/
inductive ItemOutcome where
  | ok (items : List ResultItem)
  | err (message : String)

/-- The synthetic per-item error record pushed in continue-on-failure mode. -/
def errorRecord (message : String) (itemIndex : Nat) : ResultItem :=
  ⟨.obj [("error", .str message), ("itemIndex", .num itemIndex)]⟩

/-- The per-item loop of `Supabase.execute`, from item index `i`: append
every result item; on an error either push the synthetic record and continue
(continue-on-failure) or throw `NodeOperationError(message, { itemIndex })`
(modelled as the error pair), discarding all accumulated records. -/
def executeLoop (continueOnFail : Bool) : Nat → List ItemOutcome →
    Except (String × Nat) (List ResultItem)
  | _, [] => .ok []
  | i, .ok items :: rest => (executeLoop continueOnFail (i + 1) rest).map (items ++ ·)
  | i, .err m :: rest =>
    if continueOnFail then
      (executeLoop continueOnFail (i + 1) rest).map (errorRecord m i :: ·)
    else
      .error (m, i)

/-!
## Credential validation (`supabaseClient.ts:23–43`)
-/

/-- Structure `ISupabaseCredentials` restricted to the two fields `validateCredentials`
reads. -/
structure SupabaseCredentials where
  host : String
  serviceKey : String

/-- Split at the first occurrence of `://`. -/
def splitSchemeRest : List Char → Option (List Char × List Char)
  | [] => none
  | ':' :: '/' :: '/' :: rest => some ([], rest)
  | c :: rest => (splitSchemeRest rest).map (fun p => (c :: p.1, p.2))

/-- Success of `new URL(host)`, the WHATWG URL constructor.  Modelled on the
`scheme://rest` shape (an alphabetic scheme followed by `://` and a nonempty
remainder), which covers every host string considered here; other accepted
spellings of the real constructor are outside the model. -/
def jsURLParses (s : String) : Bool :=
  match splitSchemeRest s.data with
  | some (scheme, rest) => ¬ scheme.isEmpty && scheme.all Char.isAlpha && ¬ rest.isEmpty
  | none => false

/-- Embedding of `validateCredentials`: missing host, missing key, unparsable URL, then
the substring test for `supabase.co` / `localhost` over the whole host
string — each failure throws. -/
def validateCredentials (credentials : SupabaseCredentials) : Except String Unit :=
  if credentials.host = "" then
    .error "Supabase Project URL is required"
  else if credentials.serviceKey = "" then
    .error "Supabase API Key is required"
  else if ¬ jsURLParses credentials.host then
    .error "Invalid Supabase Project URL format"
  else if ¬ (jsIncludes credentials.host "supabase.co" ∨ jsIncludes credentials.host "localhost") then
    .error "URL must be a valid Supabase project URL"
  else
    .ok ()

/-!
## Concrete inputs used by witnesses and counterexamples
-/

/-- The delete handler's empty-filter guard message (index.ts:291). -/
def guardMsg : String :=
  "At least one filter is required for delete operations to prevent accidental data loss"

def sampleColumnDef : ColumnDefinition := ⟨"id", "serial", false, "", true, false⟩

def sampleIndexDef : IndexDefinition := ⟨"users_idx", ["id"], false, ""⟩

/-- A well-formed parameter bag over table `users`. -/
def sampleParams : Params where
  table := "users"
  uiMode := "simple"
  jsonData := "\x7b\x7d"
  columns := []
  filters := [⟨"id", "eq", .num 1⟩]
  advancedFilters := ""
  returnFields := "*"
  sort := []
  limit := none
  offset := none
  onConflict := ""
  tableName := "users"
  columnDefinitions := [sampleColumnDef]
  columnDefinition := sampleColumnDef
  columnName := "age"
  cascade := false
  indexDefinition := sampleIndexDef
  indexName := "users_idx"
  customSql := "SELECT * FROM users"

/-- A successful backend response carrying no data. -/
def nullResponse : DbResponse := ⟨.null, .null⟩

/-- Parameters in advanced mode whose filters are supplied only as advanced
JSON; the simple-mode `filters.filter` parameter is at its default `[]`. -/
def advancedModeParams : Params :=
  { sampleParams with
      uiMode := "advanced"
      filters := []
      advancedFilters := "\x7b\"id\":\x7b\"gt\":\"1\"\x7d\x7d" }

/-- An index definition none of whose identifiers would pass validation. -/
def badIndexDef : IndexDefinition := ⟨"bad index;", ["col; DROP TABLE x"], false, "gist; --"⟩

/-!
## Helper lemmas
-/

/-- Validation success of every column definition implies per-column
validator success. -/
theorem validateColumnDefs_ok {l : List ColumnDefinition}
    (h : validateColumnDefs l = .ok ()) : ∀ c ∈ l, validateColumnName c.name = .ok () := by
  induction l with
  | nil => simp
  | cons c rest ih =>
    intro d hd
    unfold validateColumnDefs at h
    cases hc : validateColumnName c.name with
    | error e => rw [hc] at h; exact absurd h (by simp)
    | ok u =>
      cases u
      rw [hc] at h
      rw [List.mem_cons] at hd
      rcases hd with rfl | hd
      · exact hc
      · exact ih h d hd

/-- A run of single-item successes contributes its items in order and
advances the index. -/
theorem executeLoop_singletons (cof : Bool) (pre : List ResultItem) (i : Nat)
    (rest : List ItemOutcome) :
    executeLoop cof i (pre.map (fun r => .ok [r]) ++ rest) =
      (executeLoop cof (i + pre.length) rest).map (pre ++ ·) := by
  induction pre generalizing i with
  | nil =>
    cases h : executeLoop cof i rest <;> simp [h, Except.map]
  | cons r pre ih =>
    calc executeLoop cof i ((r :: pre).map (fun s => ItemOutcome.ok [s]) ++ rest)
        = (executeLoop cof (i + 1) (pre.map (fun s => ItemOutcome.ok [s]) ++ rest)).map
            (fun l => [r] ++ l) := rfl
      _ = ((executeLoop cof (i + 1 + pre.length) rest).map (pre ++ ·)).map ([r] ++ ·) := by
            rw [ih]
      _ = (executeLoop cof (i + (r :: pre).length) rest).map ((r :: pre) ++ ·) := by
            have hidx : i + 1 + pre.length = i + (r :: pre).length := by simp; omega
            rw [hidx]
            cases executeLoop cof (i + (r :: pre).length) rest <;> simp [Except.map]

/-- Step of the string-literal parser over an unescaped character. -/
theorem parseStrBody_cons (c : Char) (tail : List Char) (h1 : c ≠ '"') (h2 : c ≠ '\\') :
    parseStrBody (c :: tail) = (parseStrBody tail).map (fun p => (c :: p.1, p.2)) := by
  rw [parseStrBody]
  · intro h; exact h1 h
  · intro _ _ hc _; exact h2 hc

/-- The string-literal parser inverts the escaping of `jsonStringify`. -/
theorem parseStrBody_esc (s r : List Char) :
    parseStrBody (escChars s ++ '"' :: r) = some (s, r) := by
  induction s with
  | nil => rfl
  | cons c cs ih =>
    by_cases hc : c = '"' ∨ c = '\\'
    · have he : escChars (c :: cs) ++ '"' :: r = '\\' :: c :: (escChars cs ++ '"' :: r) := by
        simp [escChars, escChar, hc]
      rw [he]
      show (parseStrBody (escChars cs ++ '"' :: r)).map (fun p => (c :: p.1, p.2)) = _
      rw [ih]; rfl
    · push_neg at hc
      have he : escChars (c :: cs) ++ '"' :: r = c :: (escChars cs ++ '"' :: r) := by
        simp [escChars, escChar, hc.1, hc.2]
      rw [he, parseStrBody_cons c _ hc.1 hc.2, ih]; rfl

/-- Parsing a serialized string literal yields the string back. -/
theorem parseVal_str (fuel : Nat) (v : String) (r : List Char) :
    parseVal (fuel + 1) ('"' :: (escChars v.data ++ '"' :: r)) = some (.str v, r) := by
  show (parseStrBody (escChars v.data ++ '"' :: r)).map
    (fun p => (JVal.str (String.mk p.1), p.2)) = _
  rw [parseStrBody_esc]; rfl

/-- The serialized member list is at least as long as the member count. -/
theorem membersChars_len : ∀ l : List (String × String), l.length ≤ (membersChars l).length
  | [] => by simp [membersChars]
  | [p] => by simp [membersChars, memberChars]
  | p :: q :: ps => by
    have ih := membersChars_len (q :: ps)
    simp only [membersChars, memberChars, List.length_cons, List.length_append]
    simp at ih ⊢
    omega

/-- The member parser inverts the member serialization, given fuel beyond
the member count. -/
theorem parseMembers_serialized :
    ∀ (l : List (String × String)) (fuel : Nat), l ≠ [] → l.length < fuel →
      parseMembers fuel (membersChars l) =
        some (l.map (fun p => (p.1, JVal.str p.2)), [])
  | [], _, hne, _ => absurd rfl hne
  | [(k, v)], fuel, _, hf => by
    obtain ⟨f, rfl⟩ : ∃ f, fuel = f + 1 := ⟨fuel - 1, by omega⟩
    obtain ⟨g, rfl⟩ : ∃ g, f = g + 1 := ⟨f - 1, by simp at hf; omega⟩
    have he : membersChars [(k, v)] =
        '"' :: (escChars k.data ++ '"' :: (':' :: '"' :: (escChars v.data ++ '"' :: ['}']))) := by
      simp [membersChars, memberChars]
    rw [he]
    show (match parseStrBody (escChars k.data ++ '"' ::
        (':' :: '"' :: (escChars v.data ++ '"' :: ['}']))) with
      | some (k', ':' :: rest2) =>
        (match parseVal (g + 1) rest2 with
          | some (v', ',' :: rest3) =>
            (parseMembers (g + 1) rest3).map (fun (p : List (String × JVal) × List Char) => ((String.mk k', v') :: p.1, p.2))
          | some (v', '}' :: rest3) => some ([(String.mk k', v')], rest3)
          | _ => none)
      | _ => none) = _
    rw [parseStrBody_esc]
    show (match parseVal (g + 1) ('"' :: (escChars v.data ++ '"' :: ['}'])) with
      | some (v', ',' :: rest3) =>
        (parseMembers (g + 1) rest3).map (fun (p : List (String × JVal) × List Char) => ((String.mk k.data, v') :: p.1, p.2))
      | some (v', '}' :: rest3) => some ([(String.mk k.data, v')], rest3)
      | _ => none) = _
    rw [parseVal_str]
    rfl
  | (k, v) :: q :: ps, fuel, _, hf => by
    obtain ⟨f, rfl⟩ : ∃ f, fuel = f + 1 := ⟨fuel - 1, by omega⟩
    have he : membersChars ((k, v) :: q :: ps) =
        '"' :: (escChars k.data ++ '"' ::
          (':' :: '"' :: (escChars v.data ++ '"' :: (',' :: membersChars (q :: ps))))) := by
      simp [membersChars, memberChars]
    rw [he]
    show (match parseStrBody (escChars k.data ++ '"' ::
        (':' :: '"' :: (escChars v.data ++ '"' :: (',' :: membersChars (q :: ps))))) with
      | some (k', ':' :: rest2) =>
        (match parseVal f rest2 with
          | some (v', ',' :: rest3) =>
            (parseMembers f rest3).map (fun (p : List (String × JVal) × List Char) => ((String.mk k', v') :: p.1, p.2))
          | some (v', '}' :: rest3) => some ([(String.mk k', v')], rest3)
          | _ => none)
      | _ => none) = _
    rw [parseStrBody_esc]
    obtain ⟨g, rfl⟩ : ∃ g, f = g + 1 := ⟨f - 1, by simp at hf; omega⟩
    show (match parseVal (g + 1) ('"' :: (escChars v.data ++ '"' ::
        (',' :: membersChars (q :: ps)))) with
      | some (v', ',' :: rest3) =>
        (parseMembers (g + 1) rest3).map (fun (p : List (String × JVal) × List Char) => ((String.mk k.data, v') :: p.1, p.2))
      | some (v', '}' :: rest3) => some ([(String.mk k.data, v')], rest3)
      | _ => none) = _
    rw [parseVal_str]
    show (parseMembers (g + 1) (membersChars (q :: ps))).map
      (fun (p : List (String × JVal) × List Char) => ((String.mk k.data, JVal.str v) :: p.1, p.2)) = _
    rw [parseMembers_serialized (q :: ps) (g + 1) (by simp) (by simp at hf ⊢; omega)]
    rfl

/-- Parsing a serialized object yields its members through JavaScript
object assignment. -/
theorem parseVal_obj (fuel : Nat) (l : List (String × String)) (hne : l ≠ [])
    (hfuel : l.length < fuel) :
    parseVal (fuel + 1) ('{' :: membersChars l) =
      some (.obj (jsObjOfMembers (l.map fun p => (p.1, JVal.str p.2))), []) := by
  obtain ⟨t, ht⟩ : ∃ t, membersChars l = '"' :: t := by
    cases l with
    | nil => exact absurd rfl hne
    | cons p ps =>
      cases ps with
      | nil => exact ⟨_, rfl⟩
      | cons q qs => exact ⟨_, rfl⟩
  rw [ht]
  show (parseMembers fuel ('"' :: t)).map
    (fun (p : List (String × JVal) × List Char) => (JVal.obj (jsObjOfMembers p.1), p.2)) = _
  rw [← ht, parseMembers_serialized l fuel hne hfuel]
  rfl

/-- Round trip: parsing the serialization of a flat string mapping yields
the mapping, as a JavaScript object. -/
theorem jsonParse_serializePairs (pairs : List (String × String)) :
    jsonParse (serializePairs pairs) =
      some (.obj (jsObjOfMembers (pairs.map fun p => (p.1, JVal.str p.2)))) := by
  cases pairs with
  | nil => rfl
  | cons p ps =>
    have hlen := membersChars_len (p :: ps)
    unfold jsonParse serializePairs
    have hlen2 : (String.mk ('{' :: membersChars (p :: ps))).length =
        (membersChars (p :: ps)).length + 1 := by
      simp [String.length]
    rw [hlen2]
    obtain ⟨f, hfeq⟩ : ∃ f, 2 * ((membersChars (p :: ps)).length + 1) + 2 = f + 1 :=
      ⟨2 * ((membersChars (p :: ps)).length + 1) + 1, by omega⟩
    rw [hfeq]
    rw [show (String.mk ('{' :: membersChars (p :: ps))).data = '{' :: membersChars (p :: ps)
      from rfl]
    rw [parseVal_obj f (p :: ps) (by simp) (by omega)]

/-- Lookup skips a prefix in which the key is absent. -/
theorem lookup_append_none {β : Type} (l₁ l₂ : List (String × β)) (k : String)
    (h : l₁.lookup k = none) : (l₁ ++ l₂).lookup k = l₂.lookup k := by
  induction l₁ with
  | nil => rfl
  | cons p l ih =>
    rw [List.cons_append, List.lookup] at *
    cases hpk : (k == p.1) with
    | true => rw [hpk] at h; exact absurd h (by simp)
    | false => rw [hpk] at h; exact ih h

/-- Repeated assignment of bindings with fresh, pairwise-distinct keys is
plain concatenation. -/
theorem foldl_objSet_fresh :
    ∀ (members : List (String × JVal)) (acc : List (String × JVal)),
      (members.map Prod.fst).Nodup →
      (∀ k ∈ members.map Prod.fst, acc.lookup k = none) →
      members.foldl (fun a m => objSet a m.1 m.2) acc = acc ++ members
  | [], acc, _, _ => by simp
  | (k, v) :: rest, acc, hnd, hfresh => by
    rw [List.foldl_cons]
    have hk : acc.lookup k = none := hfresh k (by simp)
    have hstep : objSet acc k v = acc ++ [(k, v)] := by
      unfold objSet
      rw [hk]
      simp
    rw [hstep]
    have hnd' : (rest.map Prod.fst).Nodup := by
      simp only [List.map_cons, List.nodup_cons] at hnd
      exact hnd.2
    have hknotin : k ∉ rest.map Prod.fst := by
      simp only [List.map_cons, List.nodup_cons] at hnd
      exact hnd.1
    have hfresh' : ∀ k' ∈ rest.map Prod.fst, (acc ++ [(k, v)]).lookup k' = none := by
      intro k' hk'
      rw [lookup_append_none _ _ _ (hfresh k' (by simp [hk']))]
      have hb : (k' == k) = false :=
        beq_eq_false_iff_ne.mpr (fun heq => hknotin (heq ▸ hk'))
      simp [List.lookup, hb]
    rw [foldl_objSet_fresh rest (acc ++ [(k, v)]) hnd' hfresh']
    simp

/-- JavaScript object construction from members with distinct keys keeps
the member list unchanged. -/
theorem jsObjOfMembers_nodup (members : List (String × JVal))
    (h : (members.map Prod.fst).Nodup) : jsObjOfMembers members = members := by
  unfold jsObjOfMembers
  rw [foldl_objSet_fresh members [] h (by simp [List.lookup])]
  simp

/-- The simple-mode guard passes on every pair with a nonempty name and a
string value, so the guarded fold equals the assignment fold. -/
theorem guard_fold_eq :
    ∀ (pairs : List (String × String)) (acc : List (String × JVal)),
      (∀ p ∈ pairs, p.1 ≠ "") →
      (pairs.map fun p => ColumnPair.mk p.1 (.str p.2)).foldl
        (fun a c => if c.name ≠ "" ∧ ¬ isUndef c.value then objSet a c.name c.value else a) acc =
      (pairs.map fun p => (p.1, JVal.str p.2)).foldl (fun a m => objSet a m.1 m.2) acc
  | [], _, _ => rfl
  | p :: rest, acc, h => by
    simp only [List.map_cons, List.foldl_cons]
    have hname : p.1 ≠ "" := h p (by simp)
    rw [if_pos ⟨hname, by simp [isUndef]⟩]
    exact guard_fold_eq rest _ (fun q hq => h q (by simp [hq]))

/-- The simple-mode row build over a nonempty-keyed mapping equals
JavaScript object construction from the same bindings. -/
theorem buildSimpleFields_pairs (pairs : List (String × String))
    (hkeys : ∀ p ∈ pairs, p.1 ≠ "") :
    buildSimpleFields (pairs.map fun p => ⟨p.1, .str p.2⟩) =
      jsObjOfMembers (pairs.map fun p => (p.1, JVal.str p.2)) := by
  unfold buildSimpleFields jsObjOfMembers
  exact guard_fold_eq pairs [] hkeys

/-!
## Claim theorems
-/

/-- C1: a delete request with an empty simple-mode filter list fails before
any backend call (for a valid table name, with the dedicated guard message);
with at least one filter and a valid table name the guard does not fire and
every filter is applied to the issued query, in order. -/
theorem c1_delete_empty_filter_guard (p : Params) (resp : DbResponse) :
    (p.filters = [] →
      (handleDelete p resp).1 = none ∧
      (∃ e, (handleDelete p resp).2 = .error e) ∧
      (validateTableName p.table = .ok () →
        (handleDelete p resp).2 = .error guardMsg)) ∧
    (p.filters ≠ [] → validateTableName p.table = .ok () →
      (handleDelete p resp).1 = some (.deleteQ p.table
        (p.filters.map fun f =>
          AppliedFilter.mk f.column (convertFilterOperator f.operator) f.value))) := by
  unfold handleDelete
  cases hv : validateTableName p.table with
  | error e => simp [hv]
  | ok u =>
    cases u
    constructor
    · intro hf
      simp [hf, guardMsg]
    · intro hf _
      simp [List.isEmpty_iff, hf]

/-- Witness for C1 at a concrete delete request over table `users`. -/
theorem c1_delete_empty_filter_guard_witness :
    (handleDelete { sampleParams with filters := [] } nullResponse).2 = .error guardMsg ∧
    (handleDelete sampleParams nullResponse).1 = some (.deleteQ "users" [⟨"id", "eq", .num 1⟩]) := by
  constructor
  · exact ((c1_delete_empty_filter_guard { sampleParams with filters := [] }
      nullResponse).1 rfl).2.2 rfl
  · exact (c1_delete_empty_filter_guard sampleParams nullResponse).2 (by simp [sampleParams]) rfl

/-- Counterexample to C2: `handleCreateIndex` interpolates the index name,
the index columns and the access method into the SQL it issues although the
name and columns fail both validators (they are double-quoted but never
validated) and the method is interpolated raw. -/
theorem c2_ddl_identifier_validation_cex :
    (handleCreateIndex { sampleParams with indexDefinition := badIndexDef } nullResponse).1 =
      some (.rpc "exec_sql"
        "CREATE INDEX \"bad index;\" ON \"users\" USING gist; -- (\"col; DROP TABLE x\")") ∧
    validateTableName "bad index;" =
      .error "Table name must start with a letter and contain only letters, numbers, and underscores" ∧
    validateColumnName "bad index;" =
      .error "Column name must start with a letter and contain only letters, numbers, and underscores" ∧
    validateColumnName "col; DROP TABLE x" =
      .error "Column name must start with a letter and contain only letters, numbers, and underscores" :=
  ⟨rfl, rfl, rfl, rfl⟩

/-- C2 (amended): in createTable, dropTable, addColumn and dropColumn every
interpolated identifier first passes `validateTableName`/`validateColumnName`
and is double-quoted in the generated SQL; in createIndex and dropIndex the
index name and index columns are double-quoted but only checked non-empty,
never validated, and the access method, the column type and the raw
defaultValue expression are interpolated without validation or escaping. -/
theorem c2_ddl_identifier_validation (p : Params) (resp : DbResponse) (q : BackendCall) :
    ((handleCreateTable p resp).1 = some q →
      validateTableName p.tableName = .ok () ∧
      (∀ c ∈ p.columnDefinitions, validateColumnName c.name = .ok ()) ∧
      q = .rpc "exec_sql" (createTableSql p.tableName p.columnDefinitions)) ∧
    ((handleDropTable p resp).1 = some q → validateTableName p.tableName = .ok ()) ∧
    ((handleAddColumn p resp).1 = some q →
      validateTableName p.tableName = .ok () ∧
      validateColumnName p.columnDefinition.name = .ok ()) ∧
    ((handleDropColumn p resp).1 = some q →
      validateTableName p.tableName = .ok () ∧ validateColumnName p.columnName = .ok ()) ∧
    ((handleCreateIndex p resp).1 = some q →
      validateTableName p.tableName = .ok () ∧ p.indexDefinition.name ≠ "" ∧
      ¬ p.indexDefinition.columns.isEmpty ∧
      q = .rpc "exec_sql" (createIndexSql p.tableName p.indexDefinition)) ∧
    ((handleDropIndex p resp).1 = some q → p.indexName ≠ "") := by
  refine ⟨?_, ?_, ?_, ?_, ?_, ?_⟩
  · intro hq
    unfold handleCreateTable at hq
    cases hv : validateTableName p.tableName with
    | error e => rw [hv] at hq; exact absurd hq (by simp)
    | ok u =>
      cases u
      rw [hv] at hq
      by_cases he : p.columnDefinitions.isEmpty
      · rw [if_pos he] at hq; exact absurd hq (by simp)
      · rw [if_neg he] at hq
        cases hc : validateColumnDefs p.columnDefinitions with
        | error e => rw [hc] at hq; exact absurd hq (by simp)
        | ok u =>
          cases u
          rw [hc] at hq
          unfold rpcExec at hq
          simp at hq
          exact ⟨rfl, validateColumnDefs_ok hc, hq.symm⟩
  · intro hq
    unfold handleDropTable at hq
    cases hv : validateTableName p.tableName with
    | error e => rw [hv] at hq; exact absurd hq (by simp)
    | ok u => cases u; rfl
  · intro hq
    unfold handleAddColumn at hq
    cases hv : validateTableName p.tableName with
    | error e => rw [hv] at hq; exact absurd hq (by simp)
    | ok u =>
      cases u
      rw [hv] at hq
      cases hc : validateColumnName p.columnDefinition.name with
      | error e => rw [hc] at hq; exact absurd hq (by simp)
      | ok u => cases u; exact ⟨rfl, rfl⟩
  · intro hq
    unfold handleDropColumn at hq
    cases hv : validateTableName p.tableName with
    | error e => rw [hv] at hq; exact absurd hq (by simp)
    | ok u =>
      cases u
      rw [hv] at hq
      cases hc : validateColumnName p.columnName with
      | error e => rw [hc] at hq; exact absurd hq (by simp)
      | ok u => cases u; exact ⟨rfl, rfl⟩
  · intro hq
    unfold handleCreateIndex at hq
    cases hv : validateTableName p.tableName with
    | error e => rw [hv] at hq; exact absurd hq (by simp)
    | ok u =>
      cases u
      rw [hv] at hq
      by_cases hg : p.indexDefinition.name = "" ∨ p.indexDefinition.columns.isEmpty
      · rw [if_pos hg] at hq; exact absurd hq (by simp)
      · rw [if_neg hg] at hq
        push_neg at hg
        unfold rpcExec at hq
        simp at hq
        exact ⟨rfl, hg.1, by simp [hg.2], hq.symm⟩
  · intro hq
    unfold handleDropIndex at hq
    by_cases hg : p.indexName = ""
    · rw [if_pos hg] at hq; exact absurd hq (by simp)
    · exact hg

/-- Witness for the amended C2 at a concrete createIndex request. -/
theorem c2_ddl_identifier_validation_witness :
    validateTableName sampleParams.tableName = .ok () ∧
    sampleParams.indexDefinition.name ≠ "" ∧
    ¬ sampleParams.indexDefinition.columns.isEmpty ∧
    BackendCall.rpc "exec_sql" (createIndexSql "users" sampleIndexDef) =
      .rpc "exec_sql" (createIndexSql sampleParams.tableName sampleParams.indexDefinition) :=
  (c2_ddl_identifier_validation sampleParams nullResponse
    (.rpc "exec_sql" (createIndexSql "users" sampleIndexDef))).2.2.2.2.1 rfl

/-- C3: in a batch where exactly the middle item throws message `m` and every
other item yields one result, continue-on-failure yields one record per item
in input order with the error record `(error, itemIndex)` at the throwing
item's index; without continue-on-failure the error aborts the batch at that
index and no records are produced. -/
theorem c3_continue_on_failure_batch (pre post : List ResultItem) (m : String) :
    executeLoop true 0 (pre.map (fun r => .ok [r]) ++ .err m :: post.map (fun r => .ok [r])) =
      .ok (pre ++ errorRecord m pre.length :: post) ∧
    executeLoop false 0 (pre.map (fun r => .ok [r]) ++ .err m :: post.map (fun r => .ok [r])) =
      .error (m, pre.length) ∧
    (pre ++ errorRecord m pre.length :: post).length =
      (pre.map (fun r => ItemOutcome.ok [r]) ++ .err m :: post.map (fun r => ItemOutcome.ok [r])).length := by
  have hpost : ∀ (cof : Bool) (j : Nat),
      executeLoop cof j (post.map (fun r => .ok [r])) = .ok post := by
    intro cof j
    have h := executeLoop_singletons cof post j []
    simpa [executeLoop, Except.map] using h
  refine ⟨?_, ?_, ?_⟩
  · rw [executeLoop_singletons true pre 0 _]
    simp only [executeLoop, Nat.zero_add]
    simp [hpost, Except.map]
  · rw [executeLoop_singletons false pre 0 _]
    simp [executeLoop, Except.map]
  · simp

/-- C4: `validateTableName` and `validateColumnName` accept exactly the
strings matching the anchored identifier pattern with length at most 63, and
fail with a validation error on every other string. -/
theorem c4_identifier_validators_exact (s : String) :
    (validateTableName s = .ok () ↔ matchesIdent s = true ∧ s.length ≤ 63) ∧
    (validateColumnName s = .ok () ↔ matchesIdent s = true ∧ s.length ≤ 63) := by
  constructor
  · unfold validateTableName
    split_ifs with h1 h2 h3
    · subst h1; simp [matchesIdent]
    · simp_all
    · simp_all
    · simp_all
  · unfold validateColumnName
    split_ifs with h1 h2 h3
    · subst h1; simp [matchesIdent]
    · simp_all
    · simp_all
    · simp_all

/-- Counterexample to C5: the empty string is a string input that is not
returned unchanged — being falsy, it hits the sentinel instead. -/
theorem c5_error_normalizer_cex :
    formatSupabaseError (.str "") = .str "Unknown error occurred" ∧
    JVal.str "Unknown error occurred" ≠ JVal.str "" := by
  refine ⟨rfl, ?_⟩
  simp

/-- C5 (amended): the error normalizer maps every falsy input (null,
undefined, empty string, 0, false) to the fixed sentinel; a non-empty string
is returned unchanged; otherwise it returns the first truthy field among
`.message`, `.error_description`, `.details`, and as last resort the
JSON-stringified form (so the empty object yields its serialization and a
truthy `message` field such as `boom` is returned). -/
theorem c5_error_normalizer :
    formatSupabaseError .null = .str "Unknown error occurred" ∧
    formatSupabaseError .undef = .str "Unknown error occurred" ∧
    formatSupabaseError (.str "") = .str "Unknown error occurred" ∧
    formatSupabaseError (.num 0) = .str "Unknown error occurred" ∧
    formatSupabaseError (.bool false) = .str "Unknown error occurred" ∧
    (∀ s : String, s ≠ "" → formatSupabaseError (.str s) = .str s) ∧
    (∀ fields : List (String × JVal),
      (∀ m, truthyField (.obj fields) "message" = some m →
        formatSupabaseError (.obj fields) = m) ∧
      (truthyField (.obj fields) "message" = none →
        (∀ m, truthyField (.obj fields) "error_description" = some m →
          formatSupabaseError (.obj fields) = m) ∧
        (truthyField (.obj fields) "error_description" = none →
          (∀ m, truthyField (.obj fields) "details" = some m →
            formatSupabaseError (.obj fields) = m) ∧
          (truthyField (.obj fields) "details" = none →
            formatSupabaseError (.obj fields) = .str (jsonStringify (.obj fields)))))) ∧
    formatSupabaseError (.obj []) = .str "\x7b\x7d" ∧
    formatSupabaseError (.obj [("message", .str "boom")]) = .str "boom" := by
  refine ⟨rfl, rfl, rfl, rfl, rfl, ?_, ?_, ?_, rfl⟩
  · intro s hs
    simp [formatSupabaseError, jsTruthy, hs]
  · intro fields
    refine ⟨?_, ?_⟩
    · intro m hm
      simp [formatSupabaseError, jsTruthy, hm]
    · intro hm
      refine ⟨?_, ?_⟩
      · intro m hd
        simp [formatSupabaseError, jsTruthy, hm, hd]
      · intro hd
        refine ⟨?_, ?_⟩
        · intro m he
          simp [formatSupabaseError, jsTruthy, hm, hd, he]
        · intro he
          simp [formatSupabaseError, jsTruthy, hm, hd, he]
  · simp [formatSupabaseError, truthyField, getField, jsTruthy, jsonStringify]
    decide

/-- Witness for the amended C5 at a concrete non-empty string. -/
theorem c5_error_normalizer_witness :
    formatSupabaseError (.str "boom") = .str "boom" :=
  c5_error_normalizer.2.2.2.2.2.1 "boom" (by decide)

/-- Counterexample to C6: for the mapping binding the empty key to `v`, the
simple-mode build drops the pair (its name is falsy) while the advanced-mode
parse of the mapping's serialization keeps it, so the two row objects
differ. -/
theorem c6_simple_advanced_round_trip_cex :
    serializePairs [("", "v")] = "\x7b\"\":\"v\"\x7d" ∧
    resolveRowObject "simple" "\x7b\x7d" [⟨"", .str "v"⟩] = .ok (.obj []) ∧
    resolveRowObject "advanced" (serializePairs [("", "v")]) [] =
      .ok (.obj [("", .str "v")]) ∧
    JVal.obj [] ≠ JVal.obj [("", .str "v")] :=
  ⟨rfl, rfl, rfl, by simp⟩

/-- C6 (amended): for every finite mapping whose keys are nonempty (and
pairwise distinct, as keys of a mapping are), the row object built in simple
mode from its `(name, value)` pairs equals the row object built in advanced
mode from the mapping's JSON serialization, both being the object with
exactly those bindings. -/
theorem c6_simple_advanced_round_trip (pairs : List (String × String))
    (hkeys : ∀ p ∈ pairs, p.1 ≠ "") (hnodup : (pairs.map Prod.fst).Nodup) :
    resolveRowObject "advanced" (serializePairs pairs) [] =
      resolveRowObject "simple" "\x7b\x7d" (pairs.map fun p => ⟨p.1, .str p.2⟩) ∧
    resolveRowObject "simple" "\x7b\x7d" (pairs.map fun p => ⟨p.1, .str p.2⟩) =
      .ok (.obj (pairs.map fun p => (p.1, JVal.str p.2))) := by
  have hnodup2 : ((pairs.map fun p => (p.1, JVal.str p.2)).map Prod.fst).Nodup := by
    rw [List.map_map]
    exact hnodup
  have hobj := jsObjOfMembers_nodup _ hnodup2
  have hadv : resolveRowObject "advanced" (serializePairs pairs) [] =
      .ok (.obj (jsObjOfMembers (pairs.map fun p => (p.1, JVal.str p.2)))) := by
    unfold resolveRowObject
    rw [if_pos rfl, jsonParse_serializePairs]
  have hsimple : resolveRowObject "simple" "\x7b\x7d" (pairs.map fun p => ⟨p.1, .str p.2⟩) =
      .ok (.obj (buildSimpleFields (pairs.map fun p => ⟨p.1, .str p.2⟩))) := by
    unfold resolveRowObject
    rw [if_neg (by decide)]
  constructor
  · rw [hadv, hsimple, buildSimpleFields_pairs pairs hkeys]
  · rw [hsimple, buildSimpleFields_pairs pairs hkeys, hobj]

/-- Witness for the amended C6 at the one-binding mapping of the claim. -/
theorem c6_simple_advanced_round_trip_witness :
    resolveRowObject "advanced" (serializePairs [("x", "y")]) [] =
      resolveRowObject "simple" "\x7b\x7d" [⟨"x", .str "y"⟩] ∧
    resolveRowObject "simple" "\x7b\x7d" [⟨"x", .str "y"⟩] = .ok (.obj [("x", .str "y")]) :=
  c6_simple_advanced_round_trip [("x", "y")] (by simp) (by simp)

/-- C7: a read whose query resolves and whose backend response holds zero
rows returns exactly the single no-records item with the fixed metadata
shape; a response with rows returns exactly one item per row in response
order. -/
theorem c7_read_zero_rows_reshape (p : Params) (q : ReadQuery) (rows : List JVal)
    (hq : resolveRead p = .ok q) :
    (rows = [] →
      (handleRead p ⟨.null, .arr rows⟩).2 = .ok
        [⟨.obj [("data", .arr []), ("count", .num 0), ("operation", .str "read"),
                ("table", .str p.table), ("message", .str "No records found")]⟩]) ∧
    (rows ≠ [] →
      (handleRead p ⟨.null, .arr rows⟩).2 = .ok (rows.map ResultItem.mk) ∧
      (rows.map ResultItem.mk).length = rows.length) := by
  unfold handleRead
  rw [hq]
  constructor
  · intro h
    subst h
    simp [readReshape, jsTruthy]
  · intro h
    refine ⟨?_, by simp⟩
    simp [readReshape, jsTruthy, h]

/-- Witness for C7 at a concrete read over table `users`, with an empty and
a one-row response. -/
theorem c7_read_zero_rows_reshape_witness :
    (handleRead sampleParams ⟨.null, .arr []⟩).2 = .ok
      [⟨.obj [("data", .arr []), ("count", .num 0), ("operation", .str "read"),
              ("table", .str "users"), ("message", .str "No records found")]⟩] ∧
    (handleRead sampleParams ⟨.null, .arr [.obj [("id", .num 1)]]⟩).2 =
      .ok [⟨.obj [("id", .num 1)]⟩] :=
  ⟨(c7_read_zero_rows_reshape sampleParams ⟨"users", "*", [⟨"id", "eq", .num 1⟩], [], none, none⟩
      [] rfl).1 rfl,
   ((c7_read_zero_rows_reshape sampleParams ⟨"users", "*", [⟨"id", "eq", .num 1⟩], [], none, none⟩
      [.obj [("id", .num 1)]] rfl).2 (by simp)).1⟩

/-- C8: a blank custom query fails with the validation error before any
call; a non-blank query whose trimmed text starts with `select`
case-insensitively goes to the `exec_sql_select` RPC with one item per
returned row (or one synthetic item on an empty row array); every other
non-blank query goes to the `exec_sql` RPC with exactly one
`(operation, sql, result, success)` item. -/
theorem c8_custom_query_routing (p : Params) (rows : List JVal) (d : JVal) :
    (jsTrim p.customSql = "" →
      ∀ resp, handleCustomQuery p resp = (none, .error "SQL query is required")) ∧
    (jsTrim p.customSql ≠ "" →
      jsStartsWith (jsToLower (jsTrim p.customSql)) "select" = true →
      (∀ resp, (handleCustomQuery p resp).1 = some (.rpc "exec_sql_select" p.customSql)) ∧
      (rows ≠ [] →
        (handleCustomQuery p ⟨.null, .arr rows⟩).2 = .ok (rows.map ResultItem.mk) ∧
        (rows.map ResultItem.mk).length = rows.length) ∧
      (handleCustomQuery p ⟨.null, .arr []⟩).2 = .ok
        [⟨.obj [("data", .arr []), ("operation", .str "customQuery"),
                ("sql", .str p.customSql),
                ("message", .str "Query executed successfully, no results returned")]⟩]) ∧
    (jsTrim p.customSql ≠ "" →
      jsStartsWith (jsToLower (jsTrim p.customSql)) "select" = false →
      handleCustomQuery p ⟨.null, d⟩ = (some (.rpc "exec_sql" p.customSql),
        .ok [⟨.obj [("operation", .str "customQuery"), ("sql", .str p.customSql),
                    ("result", d), ("success", .bool true)]⟩])) := by
  refine ⟨?_, ?_, ?_⟩
  · intro h resp
    unfold handleCustomQuery
    simp [h]
  · intro h hs
    refine ⟨?_, ?_, ?_⟩
    · intro resp
      unfold handleCustomQuery
      simp [h, hs]
    · intro hr
      unfold handleCustomQuery
      simp [h, hs, jsTruthy, hr]
    · unfold handleCustomQuery
      simp [h, hs, jsTruthy]
  · intro h hs
    unfold handleCustomQuery
    simp [h, hs, jsTruthy]

/-- Witness for C8 at a blank query, a select query and a mutation query. -/
theorem c8_custom_query_routing_witness :
    handleCustomQuery { sampleParams with customSql := "  " } nullResponse =
      (none, .error "SQL query is required") ∧
    (handleCustomQuery sampleParams ⟨.null, .arr [.obj [("id", .num 1)]]⟩).2 =
      .ok [⟨.obj [("id", .num 1)]⟩] ∧
    handleCustomQuery { sampleParams with customSql := "DELETE FROM users" } ⟨.null, .null⟩ =
      (some (.rpc "exec_sql" "DELETE FROM users"),
       .ok [⟨.obj [("operation", .str "customQuery"), ("sql", .str "DELETE FROM users"),
                   ("result", .null), ("success", .bool true)]⟩]) :=
  ⟨(c8_custom_query_routing { sampleParams with customSql := "  " } [] .null).1
      (by decide) nullResponse,
   (((c8_custom_query_routing sampleParams [.obj [("id", .num 1)]] .null).2.1
      (by decide) (by decide)).2.1 (by simp)).1,
   (c8_custom_query_routing { sampleParams with customSql := "DELETE FROM users" } [] .null).2.2
     (by decide) (by decide)⟩

/-- Counterexample to C9: a credential with a parsable host URL and a
non-empty API key on which `validateCredentials` nevertheless fails — the
`supabase.co`/`localhost` check throws, it is not a non-fatal warning. -/
theorem c9_credential_validation_cex :
    jsURLParses "https://example.com" = true ∧
    ("my-service-key" : String) ≠ "" ∧
    validateCredentials ⟨"https://example.com", "my-service-key"⟩ =
      .error "URL must be a valid Supabase project URL" :=
  ⟨by decide, by decide, rfl⟩

/-- C9 (amended): a missing host, missing API key, or unparsable host URL
fails with the corresponding validation error, and the host-substring check
is fatal as well: for every credential with a parsable nonempty host and a
nonempty key, validation succeeds if and only if the host string contains
`supabase.co` or `localhost`, and fails with the URL error otherwise. -/
theorem c9_credential_validation (host key : String) :
    (validateCredentials ⟨"", key⟩ = .error "Supabase Project URL is required") ∧
    (host ≠ "" → validateCredentials ⟨host, ""⟩ = .error "Supabase API Key is required") ∧
    (host ≠ "" → key ≠ "" → jsURLParses host = false →
      validateCredentials ⟨host, key⟩ = .error "Invalid Supabase Project URL format") ∧
    (host ≠ "" → key ≠ "" → jsURLParses host = true →
      (validateCredentials ⟨host, key⟩ = .ok () ↔
        (jsIncludes host "supabase.co" = true ∨ jsIncludes host "localhost" = true))) ∧
    (host ≠ "" → key ≠ "" → jsURLParses host = true →
      ¬ (jsIncludes host "supabase.co" = true ∨ jsIncludes host "localhost" = true) →
      validateCredentials ⟨host, key⟩ = .error "URL must be a valid Supabase project URL") := by
  refine ⟨?_, ?_, ?_, ?_, ?_⟩
  · unfold validateCredentials
    simp
  · intro h
    unfold validateCredentials
    simp [h]
  · intro h1 h2 h3
    unfold validateCredentials
    simp [h1, h2, h3]
  · intro h1 h2 h3
    unfold validateCredentials
    by_cases hc : jsIncludes host "supabase.co" = true ∨ jsIncludes host "localhost" = true
    · simp [h1, h2, h3, hc]
    · simp [h1, h2, h3, hc]
  · intro h1 h2 h3 h4
    unfold validateCredentials
    simp [h1, h2, h3, h4]

/-- Witness for the amended C9 at a concrete hosted-project credential. -/
theorem c9_credential_validation_witness :
    validateCredentials ⟨"https://abc.supabase.co", "key"⟩ = .ok () :=
  ((c9_credential_validation "https://abc.supabase.co" "key").2.2.2.1 (by decide) (by decide)
    (by decide)).mpr (Or.inl (by decide))

/-- C10: the update and delete handlers are independent of the
`advancedFilters` parameter in every mode; with the simple-mode filter list
at its default `[]` (as in advanced mode, where the UI hides it), an update
whose data resolves is issued with an empty filter chain and a delete always
fails the empty-filter guard. -/
theorem c10_update_delete_simple_filters_only (p : Params) (a : String) (resp : DbResponse) :
    (handleUpdate { p with advancedFilters := a } resp = handleUpdate p resp) ∧
    (handleDelete { p with advancedFilters := a } resp = handleDelete p resp) ∧
    (p.filters = [] → validateTableName p.table = .ok () →
      (∀ row, resolveRowObject p.uiMode p.jsonData p.columns = .ok row →
        (handleUpdate p resp).1 = some (.updateQ p.table row [])) ∧
      (handleDelete p resp).2 = .error guardMsg) := by
  refine ⟨by cases p; rfl, by cases p; rfl, ?_⟩
  intro hf hv
  constructor
  · intro row hrow
    unfold handleUpdate
    simp [hv, hrow, hf]
  · unfold handleDelete
    simp [hv, hf, guardMsg]

/-- Witness for C10 at an advanced-mode item whose filters are supplied only
as advanced JSON. -/
theorem c10_update_delete_simple_filters_only_witness :
    (handleUpdate advancedModeParams nullResponse).1 = some (.updateQ "users" (.obj []) []) ∧
    (handleDelete advancedModeParams nullResponse).2 = .error guardMsg := by
  have h := c10_update_delete_simple_filters_only advancedModeParams "" nullResponse
  exact ⟨(h.2.2 rfl rfl).1 (.obj []) rfl, (h.2.2 rfl rfl).2⟩

end SupabaseNode
